import Mathlib

/-
Verification development for the shadowforge confidential-position vault.

The repository ships the client (TypeScript UI, `src/app/src`), the client
type declarations (`src/app/src/types.ts`), pure client helpers
(`src/app/src/lib/utils.ts`) and the integration test-suite for the on-chain
program; the on-chain program itself (the vault state machine and accounting
engine) is not part of the source tree.  Pure functions that do exist in the
tree (`calculateYield`, `generateRandomBytes`, the test helpers
`generateProof`/`generateCommitment`/`generateNullifier`) are embedded
directly from their TypeScript source.  The vault state machine is modelled
from the design document (the spec), faithful to its words; such definitions
carry a doc comment starting `Modelled from the spec:`.

JavaScript `number` arithmetic in `calculateYield` is IEEE-754 double
arithmetic; it is embedded over exact rationals, and every concrete input
used in a theorem below is chosen so that the double computation is exact
(or the conclusion is robust to rounding of magnitude below 2^-40).
-/

namespace Shadowforge

/-! ## Error taxonomy (spec section 7) -/

/-- Modelled from the spec: the error taxonomy of section 7.  The on-chain
program that raises these errors is not in the source tree. -/
inductive VaultError
  | Unauthorized
  | VaultPaused
  | VenueDisabled
  | NullifierReused
  | LoanAlreadyActive
  | NoActiveLoan
  | BridgePending
  | NoBridgePending
  | InvalidBridgeState
  | OrderNotCancellable
  | AttestationExpired
  | InvalidParameter
deriving DecidableEq, Repr

/-! ## Enumerations (mirroring src/app/src/types.ts) -/

/-- Bridge request status.  The spec (section 3) lists
Pending, Completed, Failed, Cancelled; the client declaration in
src/app/src/types.ts (BridgeStatus) omits the Cancelled variant, but the
spec's CancelRequest action requires it, so the spec's list is used. -/
inductive BridgeStatus
  | Pending
  | Completed
  | Failed
  | Cancelled
deriving DecidableEq, Repr

/-- Dark-pool order status, from src/app/src/types.ts (OrderStatus). -/
inductive OrderStatus
  | NoOrder
  | Open
  | PartiallyFilled
  | Filled
  | Cancelled
deriving DecidableEq, Repr

/-- Order side, from src/app/src/types.ts (OrderSide). -/
inductive OrderSide
  | Buy
  | Sell
deriving DecidableEq, Repr

/-- Destination chain tag, from src/app/src/types.ts (DestinationChain). -/
inductive DestinationChain
  | Ethereum
  | Polygon
  | Arbitrum
  | Optimism
  | Base
  | Avalanche
  | BSC
deriving DecidableEq, Repr

/-- Modelled from the spec: the fixed symbolic-chain-to-numeric-id table of
section 4.3 (the mapping itself lives in the on-chain program, absent from
the tree; the client's CHAIN_NAMES table in src/app/src/lib/utils.ts is its
inverse). -/
def chainId : DestinationChain → Nat
  | .Ethereum => 1
  | .Polygon => 137
  | .Arbitrum => 42161
  | .Optimism => 10
  | .Base => 8453
  | .Avalanche => 43114
  | .BSC => 56

/-! ## Fee / yield arithmetic -/

/-- Modelled from the spec: `applyFee(amount, feeBps) -> (net, fee)` with
`fee = floor(amount * feeBps / 10000)` and `net = amount - fee`
(spec section 4.1); the implementation lives in the on-chain program,
absent from the tree.  Natural-number division in Lean is floor division. -/
def applyFee (amount feeBps : Nat) : Nat × Nat :=
  let fee := amount * feeBps / 10000
  (amount - fee, fee)

/-- `calculateYield` from src/app/src/lib/utils.ts, lines 103-106:
```
export function calculateYield(principal: number, yieldBps: number, days: number): number {
  const annualYield = principal * (yieldBps / 10000)
  return (annualYield / 365) * days
}
```
JavaScript numbers are IEEE-754 doubles; the function is embedded over exact
rationals.  Every concrete input used in theorems below makes the double
computation exact, so the rational value is the value the code returns. -/
def calculateYield (principal yieldBps days : ℚ) : ℚ :=
  let annualYield := principal * (yieldBps / 10000)
  (annualYield / 365) * days

/-! ## Client-side random byte generation (src/app/src/lib/utils.ts) -/

/-- `generateRandomBytes` from src/app/src/lib/utils.ts, lines 85-89:
```
export function generateRandomBytes(length: number): number[] {
  const bytes = new Uint8Array(length)
  crypto.getRandomValues(bytes)
  return Array.from(bytes).map(b => b === 0 ? 1 : b)
}
```
The entropy source `crypto.getRandomValues` filling a `Uint8Array` yields one
byte (a value in [0, 255]) per index; it is modelled as a stream
`rand : Nat -> Nat` reduced mod 256, which realises exactly the bytes a
`Uint8Array` can hold. -/
def generateRandomBytes (length : Nat) (rand : Nat → Nat) : List Nat :=
  (List.range length).map (fun i => let b := rand i % 256; if b = 0 then 1 else b)

/-- `generateCommitment` from src/app/src/lib/utils.ts, line 91. -/
def generateCommitment (rand : Nat → Nat) : List Nat :=
  generateRandomBytes 32 rand

/-- `generateNullifier` from src/app/src/lib/utils.ts, line 95. -/
def generateNullifier (rand : Nat → Nat) : List Nat :=
  generateRandomBytes 32 rand

/-- `generateProof` from src/app/src/lib/utils.ts, line 99. -/
def generateProof (length : Nat) (rand : Nat → Nat) : List Nat :=
  generateRandomBytes length rand

namespace Tests

/-- `generateProof` from the integration test-suite (src/unnamed/part_000,
lines 38-44):
```
function generateProof(length: number = 32): number[] {
  const proof = new Array(length).fill(0);
  for (let i = 0; i < length; i++) {
    proof[i] = Math.floor(Math.random() * 255) + 1;
  }
  return proof;
}
```
`Math.random()` draws from [0, 1), so `Math.floor(Math.random() * 255)`
takes exactly the values 0..254; it is modelled as a stream
`rand : Nat -> Nat` reduced mod 255. -/
def generateProof (length : Nat) (rand : Nat → Nat) : List Nat :=
  (List.range length).map (fun i => rand i % 255 + 1)

/-- `generateCommitment` from the test-suite (src/unnamed/part_000, line 46). -/
def generateCommitment (rand : Nat → Nat) : List Nat :=
  generateProof 32 rand

/-- `generateNullifier` from the test-suite (src/unnamed/part_000, line 50). -/
def generateNullifier (rand : Nat → Nat) : List Nat :=
  generateProof 32 rand

end Tests

/-! ## Data model (spec section 3, mirroring src/app/src/types.ts) -/

/-- Modelled from the spec: the vault-wide configuration aggregate
(spec section 3 VaultConfig; the on-chain account is absent from the tree,
its client mirror is src/app/src/types.ts lines 4-28).  Identities are
abstracted as naturals; `totalShieldedTvl` is kept as an integer so that
conservation is exact. -/
structure VaultConfig where
  admin : Nat
  treasury : Nat
  totalShieldedTvl : Int
  totalPositions : Nat
  depositFeeBps : Nat
  withdrawalFeeBps : Nat
  lendingFeeBps : Nat
  swapFeeBps : Nat
  bridgeFeeBps : Nat
  currentYieldBps : Nat
  isPaused : Bool
  emergencyMode : Bool
  complianceRequired : Bool
  arciumEnabled : Bool
  shadowwireEnabled : Bool
  privacyCashEnabled : Bool
  silentswapEnabled : Bool
  starpayEnabled : Bool
  anoncoinEnabled : Bool
  rangeEnabled : Bool
deriving DecidableEq, Repr

/-- Modelled from the spec: the per-user encrypted position
(spec section 3 EncryptedPosition; client mirror src/app/src/types.ts
lines 30-45).  `principalEquivalent` is the position's current principal
equivalent of the conservation property (spec section 8); commitments and
the last-consumed nullifier are opaque byte lists. -/
structure EncryptedPosition where
  owner : Nat
  balanceCommitment : List Nat
  depositCount : Nat
  withdrawalCount : Nat
  actionCount : Nat
  hasActiveLoan : Bool
  hasPendingBridge : Bool
  complianceVerified : Bool
  nullifier : List Nat
  principalEquivalent : Int
  lastActionAt : Nat
  createdAt : Nat
deriving DecidableEq, Repr

/-- Modelled from the spec: LendingPosition (spec section 3; client mirror
src/app/src/types.ts lines 52-61). -/
structure LendingPosition where
  borrower : Nat
  collateralCommitment : List Nat
  borrowCommitment : List Nat
  interestRateBps : Nat
  isActive : Bool
  createdAt : Nat
deriving DecidableEq, Repr

/-- Modelled from the spec: BridgeRequest (spec section 3; client mirror
src/app/src/types.ts lines 63-70). -/
structure BridgeRequest where
  user : Nat
  destChainId : Nat
  amountCommitment : List Nat
  status : BridgeStatus
  createdAt : Nat
deriving DecidableEq, Repr

/-- Modelled from the spec: DarkPoolOrder (spec section 3; client mirror
src/app/src/types.ts lines 77-85). -/
structure DarkPoolOrder where
  maker : Nat
  side : OrderSide
  amountCommitment : List Nat
  priceCommitment : List Nat
  status : OrderStatus
  createdAt : Nat
deriving DecidableEq, Repr

/-- Modelled from the spec: ComplianceAttestation (spec section 3; client
mirror src/app/src/types.ts lines 98-107). -/
structure ComplianceAttestation where
  user : Nat
  attestationHash : List Nat
  riskScore : Nat
  isValid : Bool
  expiresAt : Nat
  createdAt : Nat
deriving DecidableEq, Repr

/-- The whole persisted state: the vault configuration plus the per-user
record stores, keyed by user identity. -/
structure VaultState where
  config : VaultConfig
  positions : Nat → Option EncryptedPosition
  lendings : Nat → Option LendingPosition
  bridges : Nat → Option BridgeRequest
  orders : Nat → Option DarkPoolOrder
  attestations : Nat → Option ComplianceAttestation

/-- Point update of a per-user store. -/
def upd {α : Type} (m : Nat → Option α) (k : Nat) (v : α) : Nat → Option α :=
  fun u => if u = k then some v else m u

/-! ## Commitment / nullifier ledger (spec section 4.2) -/

/-- Modelled from the spec: `recordNullifier` (spec sections 4.2, 4.3
and 9).  The position stores a single last-consumed nullifier slot which
each successful withdrawal overwrites ("stores the consumed nullifier on
the position (overwriting the prior value)", "the observed behavior only
checks/stores one slot"); recording fails with NullifierReused when the
presented nullifier equals the stored one. -/
def recordNullifier (p : EncryptedPosition) (n : List Nat) :
    Except VaultError EncryptedPosition :=
  if p.nullifier = n then .error .NullifierReused
  else .ok { p with nullifier := n }

/-! ## Actions (spec section 6 inbound payloads) -/

/-- Withdraw type, from src/app/src/types.ts (WithdrawType). -/
inductive WithdrawKind
  | Part
  | Full
  | YieldOnly
deriving DecidableEq, Repr

/-- Lend sub-action, from src/app/src/types.ts (LendAction); Liquidate is
exercised nowhere in the tree and is out of the modelled surface. -/
inductive LendAct
  | Borrow (collateralCommitment borrowCommitment : List Nat)
  | Repay (repaymentCommitment : List Nat)
deriving DecidableEq, Repr

/-- Swap sub-action, from src/app/src/types.ts (SwapAction); MatchDarkPool
is exercised nowhere in the tree and is out of the modelled surface. -/
inductive SwapAct
  | Execute
  | PlaceLimitOrder
  | CancelOrder
deriving DecidableEq, Repr

/-- Swap route, from src/app/src/types.ts (SwapRoute). -/
inductive SwapRoute
  | Starpay
  | AnoncoinDarkPool
  | Split (starpayWeightBps : Nat)
deriving DecidableEq, Repr

/-- Bridge sub-action, from src/app/src/types.ts (BridgeAction); ClaimInbound
is exercised nowhere in the tree and is out of the modelled surface. -/
inductive BridgeAct
  | InitiateOutbound
  | VerifyCompletion
  | CancelRequest
deriving DecidableEq, Repr

/-- Compliance sub-action, from src/app/src/types.ts (ComplianceAction). -/
inductive ComplianceAct
  | Submit
  | Verify
  | Revoke
deriving DecidableEq, Repr

/-- Modelled from the spec: ToggleSdk payload, "7 optional booleans"
(spec section 6), one per venue flag. -/
structure ToggleSdkArgs where
  arcium : Option Bool
  shadowwire : Option Bool
  anoncoin : Option Bool
  privacyCash : Option Bool
  silentswap : Option Bool
  starpay : Option Bool
  range : Option Bool
deriving DecidableEq, Repr

/-- Modelled from the spec: UpdateFees payload, "5 optional bps fields"
(spec section 6). -/
structure UpdateFeesArgs where
  depositFeeBps : Option Nat
  withdrawalFeeBps : Option Nat
  lendingFeeBps : Option Nat
  swapFeeBps : Option Nat
  bridgeFeeBps : Option Nat
deriving DecidableEq, Repr

/-- Modelled from the spec: AdminControl sub-actions (spec section 6). -/
inductive AdminAct
  | DepositRewards (amount : Nat)
  | UpdateYieldRate (newRateBps : Nat)
  | ToggleSdk (args : ToggleSdkArgs)
  | SetEmergencyMode (enabled : Bool)
  | SetPaused (paused : Bool)
  | UpdateFees (args : UpdateFeesArgs)
deriving DecidableEq, Repr

/-- Modelled from the spec: the action vocabulary the core consumes
(spec section 6), with identities as naturals and opaque blobs as byte
lists. -/
inductive Action
  | Deposit (user : Nat) (amount : Nat) (amountCommitment : List Nat)
  | Withdraw (user : Nat) (kind : WithdrawKind) (nullifier : List Nat)
      (expectedAmount : Nat)
  | Lend (user : Nat) (act : LendAct) (interestRateBps : Nat)
  | Swap (user : Nat) (act : SwapAct) (route : SwapRoute) (side : OrderSide)
      (amountInCommitment minOutCommitment : List Nat)
  | Bridge (user : Nat) (act : BridgeAct) (destChain : DestinationChain)
      (amountCommitment : List Nat)
  | Compliance (user : Nat) (act : ComplianceAct) (attestationHash : List Nat)
      (validityDays : Nat)
  | Admin (caller : Nat) (act : AdminAct)
deriving DecidableEq, Repr

/-! ## Action router (spec sections 4.3, 4.4, 4.5)

Each action validates, in the spec's order, (a) the pause flag (unless
admin), (b) the relevant venue feature flag, (c) entity-specific legality,
(d) numeric computation, (e) nullifier recording; every rejection returns
an error without producing a state, mirroring the spec's atomic
all-or-nothing transaction semantics. -/

/-- Modelled from the spec: a freshly created position on first deposit
(spec section 4.3 Deposit). -/
def freshPosition (u : Nat) (c : List Nat) (now amount : Nat) :
    EncryptedPosition :=
  { owner := u
    balanceCommitment := c
    depositCount := 1
    withdrawalCount := 0
    actionCount := 1
    hasActiveLoan := false
    hasPendingBridge := false
    complianceVerified := false
    nullifier := List.replicate 32 0
    principalEquivalent := (amount : Int)
    lastActionAt := now
    createdAt := now }

/-- Modelled from the spec: Deposit (spec section 4.3) — permitted only
when not paused; zero amounts and malformed commitments are
InvalidParameter; creates the position on first use (incrementing
totalPositions), else increments depositCount; increases totalShieldedTvl
by the deposited amount. -/
def depositStep (now : Nat) (s : VaultState) (u amount : Nat)
    (c : List Nat) : Except VaultError VaultState :=
  if s.config.isPaused then .error .VaultPaused
  else if amount = 0 then .error .InvalidParameter
  else if c.length ≠ 32 then .error .InvalidParameter
  else
    match s.positions u with
    | none =>
        .ok { s with
          config := { s.config with
            totalShieldedTvl := s.config.totalShieldedTvl + (amount : Int)
            totalPositions := s.config.totalPositions + 1 }
          positions := upd s.positions u (freshPosition u c now amount) }
    | some p =>
        .ok { s with
          config := { s.config with
            totalShieldedTvl := s.config.totalShieldedTvl + (amount : Int) }
          positions := upd s.positions u { p with
            balanceCommitment := c
            depositCount := p.depositCount + 1
            actionCount := p.actionCount + 1
            principalEquivalent := p.principalEquivalent + (amount : Int)
            lastActionAt := now } }

/-- Modelled from the spec: Withdraw (spec section 4.3) — requires an
existing position; computes `net = applyFee(expectedAmount,
withdrawalFeeBps).net`; requires recordNullifier to succeed; decreases
totalShieldedTvl and the principal equivalent by `net`; increments
withdrawalCount; stores the consumed nullifier (single slot, overwriting). -/
def withdrawStep (now : Nat) (s : VaultState) (u : Nat) (n : List Nat)
    (expected : Nat) : Except VaultError VaultState :=
  if s.config.isPaused then .error .VaultPaused
  else
    match s.positions u with
    | none => .error .InvalidParameter
    | some p =>
        if n.length ≠ 32 then .error .InvalidParameter
        else if expected = 0 then .error .InvalidParameter
        else
          let net := (applyFee expected s.config.withdrawalFeeBps).1
          match recordNullifier p n with
          | .error e => .error e
          | .ok p1 =>
              .ok { s with
                config := { s.config with
                  totalShieldedTvl := s.config.totalShieldedTvl - (net : Int) }
                positions := upd s.positions u { p1 with
                  withdrawalCount := p1.withdrawalCount + 1
                  actionCount := p1.actionCount + 1
                  principalEquivalent := p1.principalEquivalent - (net : Int)
                  lastActionAt := now } }

/-- Modelled from the spec: Lend (spec section 4.3) — gated by the
Privacy Cash venue flag; Borrow is rejected with LoanAlreadyActive while a
loan is active, else activates the LendingPosition and sets hasActiveLoan;
Repay is rejected with NoActiveLoan when none is active, else deactivates
and clears the flag. -/
def lendStep (now : Nat) (s : VaultState) (u : Nat) (act : LendAct)
    (rateBps : Nat) : Except VaultError VaultState :=
  if s.config.isPaused then .error .VaultPaused
  else if ¬ s.config.privacyCashEnabled then .error .VenueDisabled
  else
    match s.positions u with
    | none => .error .InvalidParameter
    | some p =>
        match act with
        | .Borrow collC borC =>
            if p.hasActiveLoan then .error .LoanAlreadyActive
            else if 10000 < rateBps then .error .InvalidParameter
            else
              .ok { s with
                positions := upd s.positions u { p with
                  hasActiveLoan := true
                  actionCount := p.actionCount + 1
                  lastActionAt := now }
                lendings := upd s.lendings u
                  { borrower := u
                    collateralCommitment := collC
                    borrowCommitment := borC
                    interestRateBps := rateBps
                    isActive := true
                    createdAt := now } }
        | .Repay _repC =>
            if ¬ p.hasActiveLoan then .error .NoActiveLoan
            else
              match s.lendings u with
              | none => .error .NoActiveLoan
              | some l =>
                  .ok { s with
                    positions := upd s.positions u { p with
                      hasActiveLoan := false
                      actionCount := p.actionCount + 1
                      lastActionAt := now }
                    lendings := upd s.lendings u { l with isActive := false } }

/-- Modelled from the spec: which venue flags gate a swap route
(spec section 4.4, src/unnamed/part_000 section 4: Execute routes through
Starpay, dark-pool orders through Anoncoin). -/
def routeEnabled (cfg : VaultConfig) : SwapRoute → Bool
  | .Starpay => cfg.starpayEnabled
  | .AnoncoinDarkPool => cfg.anoncoinEnabled
  | .Split _ => cfg.starpayEnabled && cfg.anoncoinEnabled

/-- Modelled from the spec: Swap (spec section 4.3) — Execute increments
actionCount and persists no order; PlaceLimitOrder creates or overwrites
the DarkPoolOrder in Open status; CancelOrder requires status Open or
PartiallyFilled and transitions to Cancelled, rejected otherwise with
OrderNotCancellable. -/
def swapStep (now : Nat) (s : VaultState) (u : Nat) (act : SwapAct)
    (route : SwapRoute) (side : OrderSide) (amtC priceC : List Nat) :
    Except VaultError VaultState :=
  if s.config.isPaused then .error .VaultPaused
  else if ¬ routeEnabled s.config route then .error .VenueDisabled
  else
    match s.positions u with
    | none => .error .InvalidParameter
    | some p =>
        match act with
        | .Execute =>
            .ok { s with
              positions := upd s.positions u { p with
                actionCount := p.actionCount + 1
                lastActionAt := now } }
        | .PlaceLimitOrder =>
            .ok { s with
              positions := upd s.positions u { p with
                actionCount := p.actionCount + 1
                lastActionAt := now }
              orders := upd s.orders u
                { maker := u
                  side := side
                  amountCommitment := amtC
                  priceCommitment := priceC
                  status := .Open
                  createdAt := now } }
        | .CancelOrder =>
            match s.orders u with
            | none => .error .OrderNotCancellable
            | some o =>
                if o.status = .Open ∨ o.status = .PartiallyFilled then
                  .ok { s with
                    positions := upd s.positions u { p with
                      actionCount := p.actionCount + 1
                      lastActionAt := now }
                    orders := upd s.orders u { o with status := .Cancelled } }
                else .error .OrderNotCancellable

/-- Modelled from the spec: Bridge (spec section 4.3) — gated by the
SilentSwap venue flag; InitiateOutbound is rejected with BridgePending
while hasPendingBridge, else creates the BridgeRequest in Pending with the
fixed-table numeric chain id and sets the flag; VerifyCompletion and
CancelRequest require a Pending request and transition it to Completed
resp. Cancelled, clearing the flag; a non-Pending request yields
InvalidBridgeState, a missing one NoBridgePending. -/
def bridgeStep (now : Nat) (s : VaultState) (u : Nat) (act : BridgeAct)
    (dc : DestinationChain) (amtC : List Nat) :
    Except VaultError VaultState :=
  if s.config.isPaused then .error .VaultPaused
  else if ¬ s.config.silentswapEnabled then .error .VenueDisabled
  else
    match s.positions u with
    | none => .error .InvalidParameter
    | some p =>
        match act with
        | .InitiateOutbound =>
            if p.hasPendingBridge then .error .BridgePending
            else if amtC.length ≠ 32 then .error .InvalidParameter
            else
              .ok { s with
                positions := upd s.positions u { p with
                  hasPendingBridge := true
                  actionCount := p.actionCount + 1
                  lastActionAt := now }
                bridges := upd s.bridges u
                  { user := u
                    destChainId := chainId dc
                    amountCommitment := amtC
                    status := .Pending
                    createdAt := now } }
        | .VerifyCompletion =>
            match s.bridges u with
            | none => .error .NoBridgePending
            | some r =>
                if r.status = .Pending then
                  .ok { s with
                    positions := upd s.positions u { p with
                      hasPendingBridge := false
                      actionCount := p.actionCount + 1
                      lastActionAt := now }
                    bridges := upd s.bridges u { r with status := .Completed } }
                else .error .InvalidBridgeState
        | .CancelRequest =>
            match s.bridges u with
            | none => .error .NoBridgePending
            | some r =>
                if r.status = .Pending then
                  .ok { s with
                    positions := upd s.positions u { p with
                      hasPendingBridge := false
                      actionCount := p.actionCount + 1
                      lastActionAt := now }
                    bridges := upd s.bridges u { r with status := .Cancelled } }
                else .error .InvalidBridgeState

/-- Modelled from the spec: the bounded risk score computed on attestation
submission ("computes/propagates a bounded risk score", spec section 4.3;
the test-suite only checks it is at most 75). -/
def riskScoreOf (hash : List Nat) : Nat :=
  hash.foldl (fun a b => a + b) 0 % 76

/-- Modelled from the spec: Compliance (spec section 4.3) — gated by the
Range venue flag; Submit creates/refreshes the attestation with
`expiresAt = now + validityDays * 86400`, marks it valid and sets the
position's complianceVerified; Verify rejects with AttestationExpired when
`now > expiresAt`, else refreshes validity; Revoke clears both flags. -/
def complianceStep (now : Nat) (s : VaultState) (u : Nat)
    (act : ComplianceAct) (hash : List Nat) (validityDays : Nat) :
    Except VaultError VaultState :=
  if s.config.isPaused then .error .VaultPaused
  else if ¬ s.config.rangeEnabled then .error .VenueDisabled
  else
    match s.positions u with
    | none => .error .InvalidParameter
    | some p =>
        match act with
        | .Submit =>
            if hash.length ≠ 32 then .error .InvalidParameter
            else
              .ok { s with
                positions := upd s.positions u { p with
                  complianceVerified := true
                  actionCount := p.actionCount + 1
                  lastActionAt := now }
                attestations := upd s.attestations u
                  { user := u
                    attestationHash := hash
                    riskScore := riskScoreOf hash
                    isValid := true
                    expiresAt := now + validityDays * 86400
                    createdAt := now } }
        | .Verify =>
            match s.attestations u with
            | none => .error .InvalidParameter
            | some att =>
                if att.expiresAt < now then .error .AttestationExpired
                else
                  .ok { s with
                    positions := upd s.positions u { p with
                      complianceVerified := true
                      actionCount := p.actionCount + 1
                      lastActionAt := now }
                    attestations := upd s.attestations u { att with isValid := true } }
        | .Revoke =>
            match s.attestations u with
            | none => .error .InvalidParameter
            | some att =>
                .ok { s with
                  positions := upd s.positions u { p with
                    complianceVerified := false
                    actionCount := p.actionCount + 1
                    lastActionAt := now }
                  attestations := upd s.attestations u { att with isValid := false } }

/-- Modelled from the spec: ToggleSdk flips any subset of the seven venue
flags via independent conditional assignment; unspecified fields are
no-ops, not false (spec sections 4.3 and 9). -/
def applyToggleSdk (cfg : VaultConfig) (args : ToggleSdkArgs) : VaultConfig :=
  let cfg := match args.arcium with
    | some b => { cfg with arciumEnabled := b }
    | none => cfg
  let cfg := match args.shadowwire with
    | some b => { cfg with shadowwireEnabled := b }
    | none => cfg
  let cfg := match args.anoncoin with
    | some b => { cfg with anoncoinEnabled := b }
    | none => cfg
  let cfg := match args.privacyCash with
    | some b => { cfg with privacyCashEnabled := b }
    | none => cfg
  let cfg := match args.silentswap with
    | some b => { cfg with silentswapEnabled := b }
    | none => cfg
  let cfg := match args.starpay with
    | some b => { cfg with starpayEnabled := b }
    | none => cfg
  match args.range with
  | some b => { cfg with rangeEnabled := b }
  | none => cfg

/-- Modelled from the spec: UpdateFees patches any subset of the five fee
fields, unspecified fields unchanged (spec sections 4.3 and 9). -/
def applyUpdateFees (cfg : VaultConfig) (args : UpdateFeesArgs) : VaultConfig :=
  let cfg := match args.depositFeeBps with
    | some v => { cfg with depositFeeBps := v }
    | none => cfg
  let cfg := match args.withdrawalFeeBps with
    | some v => { cfg with withdrawalFeeBps := v }
    | none => cfg
  let cfg := match args.lendingFeeBps with
    | some v => { cfg with lendingFeeBps := v }
    | none => cfg
  let cfg := match args.swapFeeBps with
    | some v => { cfg with swapFeeBps := v }
    | none => cfg
  match args.bridgeFeeBps with
  | some v => { cfg with bridgeFeeBps := v }
  | none => cfg

/-- All explicitly supplied fee fields are in the basis-point range. -/
def feesInRange (args : UpdateFeesArgs) : Bool :=
  args.depositFeeBps.all (fun v => v ≤ 10000)
    && args.withdrawalFeeBps.all (fun v => v ≤ 10000)
    && args.lendingFeeBps.all (fun v => v ≤ 10000)
    && args.swapFeeBps.all (fun v => v ≤ 10000)
    && args.bridgeFeeBps.all (fun v => v ≤ 10000)

/-- Modelled from the spec: AdminControl (spec section 4.3) — only the
stored admin may act (Unauthorized otherwise) and admin actions bypass the
pause gate; DepositRewards increases totalShieldedTvl without creating a
position; UpdateYieldRate is bounds-checked; SetEmergencyMode(true) forces
isPaused as a side effect; SetPaused is independently settable. -/
def adminStep (s : VaultState) (caller : Nat) (act : AdminAct) :
    Except VaultError VaultState :=
  if caller ≠ s.config.admin then .error .Unauthorized
  else
    match act with
    | .DepositRewards amount =>
        if amount = 0 then .error .InvalidParameter
        else
          .ok { s with config := { s.config with
            totalShieldedTvl := s.config.totalShieldedTvl + (amount : Int) } }
    | .UpdateYieldRate r =>
        if 10000 < r then .error .InvalidParameter
        else .ok { s with config := { s.config with currentYieldBps := r } }
    | .ToggleSdk args =>
        .ok { s with config := applyToggleSdk s.config args }
    | .SetEmergencyMode e =>
        .ok { s with config := { s.config with
          emergencyMode := e
          isPaused := s.config.isPaused || e } }
    | .SetPaused pz =>
        .ok { s with config := { s.config with isPaused := pz } }
    | .UpdateFees args =>
        if feesInRange args then
          .ok { s with config := applyUpdateFees s.config args }
        else .error .InvalidParameter

/-- Modelled from the spec: the Action Router (spec section 4.5), the
single entry point dispatching to the per-action transaction bodies. -/
def step (now : Nat) (s : VaultState) : Action → Except VaultError VaultState
  | .Deposit u amount c => depositStep now s u amount c
  | .Withdraw u _kind n expected => withdrawStep now s u n expected
  | .Lend u act rateBps => lendStep now s u act rateBps
  | .Swap u act route side amtC priceC => swapStep now s u act route side amtC priceC
  | .Bridge u act dc amtC => bridgeStep now s u act dc amtC
  | .Compliance u act hash days => complianceStep now s u act hash days
  | .Admin caller act => adminStep s caller act

/-- The state an action execution leaves behind: the new state on success,
the untouched input state on rejection (the spec's atomic all-or-nothing
transaction semantics, sections 4.5 and 7). -/
def applyAction (now : Nat) (s : VaultState) (a : Action) : VaultState :=
  match step now s a with
  | .ok sNew => sNew
  | .error _ => s

/-- Run a sequence of actions, each rejected action leaving the state
unchanged. -/
def run (now : Nat) (s : VaultState) : List Action → VaultState
  | [] => s
  | a :: as => run now (applyAction now s a) as

/-! ## Value flows, for the conservation property (spec section 8) -/

/-- The action is a deposit or a withdrawal. -/
def isDepWd : Action → Bool
  | .Deposit _ _ _ => true
  | .Withdraw _ _ _ _ => true
  | _ => false

/-- The signed external value flow of one action: a successful deposit
contributes its amount, a successful withdrawal contributes minus its net
amount (`applyFee(expectedAmount, withdrawalFeeBps).net`), and a rejected
action or any other action contributes nothing.  Each entry is tagged with
the user it belongs to. -/
def flowDelta (now : Nat) (s : VaultState) (a : Action) : List (Nat × Int) :=
  match step now s a with
  | .error _ => []
  | .ok _ =>
      match a with
      | .Deposit u amount _ => [(u, (amount : Int))]
      | .Withdraw u _ _ expected =>
          [(u, -((applyFee expected s.config.withdrawalFeeBps).1 : Int))]
      | _ => []

/-- The value-flow log of a whole action sequence. -/
def flows (now : Nat) (s : VaultState) : List Action → List (Nat × Int)
  | [] => []
  | a :: as => flowDelta now s a ++ flows now (applyAction now s a) as

/-- Sum of all flow entries: total deposited minus total withdrawal nets. -/
def flowSum (log : List (Nat × Int)) : Int := (log.map Prod.snd).sum

/-- One user's net contribution: the sum of that user's deposited amounts
minus the sum of that user's withdrawal net amounts. -/
def userFlowSum (u : Nat) (log : List (Nat × Int)) : Int :=
  flowSum (log.filter (fun e => e.1 = u))

/-- A user's current principal equivalent, zero while no position exists. -/
def principalOf (s : VaultState) (u : Nat) : Int :=
  match s.positions u with
  | some p => p.principalEquivalent
  | none => 0

/-- Modelled from the spec: the state right after initialization
(spec section 4.3 and src/unnamed/part_000 section 1): zero aggregate
totals and no per-user records, with the fee/flag configuration free. -/
def freshState (cfg : VaultConfig) : VaultState :=
  { config := { cfg with totalShieldedTvl := 0, totalPositions := 0 }
    positions := fun _ => none
    lendings := fun _ => none
    bridges := fun _ => none
    orders := fun _ => none
    attestations := fun _ => none }

/-! ## Cross-entity flag invariant (spec section 3) -/

/-- The user's position flag `hasActiveLoan` is true iff the user's
LendingPosition has `isActive` true (spec section 3 invariant). -/
def loanFlagOk (s : VaultState) (u : Nat) : Prop :=
  ((s.positions u).elim false EncryptedPosition.hasActiveLoan = true)
    ↔ ((s.lendings u).elim false LendingPosition.isActive = true)

/-- The user's position flag `hasPendingBridge` is true iff the user's
BridgeRequest has status Pending (spec section 3 invariant). -/
def bridgeFlagOk (s : VaultState) (u : Nat) : Prop :=
  ((s.positions u).elim false EncryptedPosition.hasPendingBridge = true)
    ↔ (∃ r, s.bridges u = some r ∧ r.status = BridgeStatus.Pending)

/-- Both cross-entity flag invariants, for every user. -/
def flagsConsistent (s : VaultState) : Prop :=
  ∀ u, loanFlagOk s u ∧ bridgeFlagOk s u

/-! ## Concrete states used to instantiate the theorems -/

/-- The configuration the test-suite initializes the vault with
(src/unnamed/part_000 section 1): all venue flags on, deposit and
withdrawal fees of 10 bps, not paused. -/
def cfgEx : VaultConfig :=
  { admin := 0
    treasury := 1
    totalShieldedTvl := 0
    totalPositions := 0
    depositFeeBps := 10
    withdrawalFeeBps := 10
    lendingFeeBps := 50
    swapFeeBps := 30
    bridgeFeeBps := 25
    currentYieldBps := 500
    isPaused := false
    emergencyMode := false
    complianceRequired := false
    arciumEnabled := true
    shadowwireEnabled := true
    privacyCashEnabled := true
    silentswapEnabled := true
    starpayEnabled := true
    anoncoinEnabled := true
    rangeEnabled := true }

/-- A well-formed 32-byte commitment blob. -/
def c32 : List Nat := List.replicate 32 1

/-- A well-formed 32-byte nullifier. -/
def n32a : List Nat := List.replicate 32 2

/-- A second, distinct well-formed 32-byte nullifier. -/
def n32b : List Nat := List.replicate 32 3

/-- The position user 7 holds after depositing 100 units at time 0. -/
def pEx : EncryptedPosition := freshPosition 7 c32 0 100

/-- The vault state after user 7 deposits 100 units into the freshly
initialized vault. -/
def sEx : VaultState :=
  applyAction 0 (freshState cfgEx) (.Deposit 7 100 c32)

/-- A freshly initialized vault that has been paused. -/
def pausedEx : VaultState := freshState { cfgEx with isPaused := true }

/-- The dark-pool order user 7's PlaceLimitOrder at time 0 creates. -/
def oEx : DarkPoolOrder :=
  { maker := 7
    side := .Sell
    amountCommitment := c32
    priceCommitment := c32
    status := .Open
    createdAt := 0 }

/-- User 7's position after the first deposit and one further action at
time 0. -/
def pEx2 : EncryptedPosition :=
  { pEx with actionCount := pEx.actionCount + 1, lastActionAt := 0 }

/-- The vault state after user 7 deposits and then places a dark-pool
limit order. -/
def sOrd : VaultState :=
  applyAction 0 sEx (.Swap 7 .PlaceLimitOrder .AnoncoinDarkPool .Sell c32 c32)

/-- A placeholder bridge request used to instantiate universally
quantified record binders at concrete inputs. -/
def rEx : BridgeRequest :=
  { user := 7
    destChainId := 1
    amountCommitment := c32
    status := .Pending
    createdAt := 0 }

/-! ## Conservation lemmas -/

theorem depWd_step_flow (now : Nat) (s : VaultState) (a : Action)
    (h : isDepWd a = true) :
    (applyAction now s a).config.totalShieldedTvl
        = s.config.totalShieldedTvl + flowSum (flowDelta now s a)
    ∧ ∀ u, principalOf (applyAction now s a) u
        = principalOf s u + userFlowSum u (flowDelta now s a) := by
  cases a with
  | Deposit v amount c =>
      simp only [applyAction, flowDelta, step, depositStep]
      by_cases hpz : s.config.isPaused
      · simp [hpz, flowSum, userFlowSum]
      · by_cases hz : amount = 0
        · simp [hpz, hz, flowSum, userFlowSum]
        · by_cases hl : c.length = 32
          · cases hp : s.positions v with
            | none =>
                refine ⟨by simp [hpz, hz, hl, hp, flowSum], fun u => ?_⟩
                by_cases hu : u = v
                · subst hu
                  simp [hpz, hz, hl, hp, flowSum, userFlowSum, principalOf,
                    upd, freshPosition]
                · simp [hpz, hz, hl, hp, flowSum, userFlowSum, principalOf,
                    upd, hu, Ne.symm hu]
            | some p =>
                refine ⟨by simp [hpz, hz, hl, hp, flowSum], fun u => ?_⟩
                by_cases hu : u = v
                · subst hu
                  simp [hpz, hz, hl, hp, flowSum, userFlowSum, principalOf, upd]
                · simp [hpz, hz, hl, hp, flowSum, userFlowSum, principalOf,
                    upd, hu, Ne.symm hu]
          · simp [hpz, hz, hl, flowSum, userFlowSum]
  | Withdraw v kind n expected =>
      simp only [applyAction, flowDelta, step, withdrawStep]
      by_cases hpz : s.config.isPaused
      · simp [hpz, flowSum, userFlowSum]
      · cases hp : s.positions v with
        | none => simp [hpz, hp, flowSum, userFlowSum]
        | some p =>
            by_cases hl : n.length = 32
            · by_cases hz : expected = 0
              · simp [hpz, hp, hl, hz, flowSum, userFlowSum]
              · by_cases hn : p.nullifier = n
                · simp [hpz, hp, hl, hz, hn, recordNullifier, flowSum,
                    userFlowSum]
                · refine ⟨by simp [hpz, hp, hl, hz, hn, recordNullifier,
                    flowSum, sub_eq_add_neg], fun u => ?_⟩
                  by_cases hu : u = v
                  · subst hu
                    simp [hpz, hp, hl, hz, hn, recordNullifier, flowSum,
                      userFlowSum, principalOf, upd, sub_eq_add_neg]
                  · simp [hpz, hp, hl, hz, hn, recordNullifier, flowSum,
                      userFlowSum, principalOf, upd, hu, Ne.symm hu]
            · simp [hpz, hp, hl, flowSum, userFlowSum]
  | Lend u act rateBps => simp [isDepWd] at h
  | Swap u act route side amtC priceC => simp [isDepWd] at h
  | Bridge u act dc amtC => simp [isDepWd] at h
  | Compliance u act hash days => simp [isDepWd] at h
  | Admin caller act => simp [isDepWd] at h

theorem flowSum_append (l1 l2 : List (Nat × Int)) :
    flowSum (l1 ++ l2) = flowSum l1 + flowSum l2 := by
  simp [flowSum]

theorem userFlowSum_append (u : Nat) (l1 l2 : List (Nat × Int)) :
    userFlowSum u (l1 ++ l2) = userFlowSum u l1 + userFlowSum u l2 := by
  simp [userFlowSum, flowSum, List.filter_append]

theorem run_flow (now : Nat) (as : List Action) :
    ∀ s : VaultState, (∀ a ∈ as, isDepWd a = true) →
    (run now s as).config.totalShieldedTvl
        = s.config.totalShieldedTvl + flowSum (flows now s as)
    ∧ ∀ u, principalOf (run now s as) u
        = principalOf s u + userFlowSum u (flows now s as) := by
  induction as with
  | nil => intro s _; simp [run, flows, flowSum, userFlowSum]
  | cons a as ih =>
      intro s hall
      have ha := hall a (List.mem_cons_self a as)
      have hstep := depWd_step_flow now s a ha
      have hrest := ih (applyAction now s a)
        (fun b hb => hall b (List.mem_cons_of_mem a hb))
      constructor
      · show (run now (applyAction now s a) as).config.totalShieldedTvl = _
        rw [hrest.1, hstep.1, flows, flowSum_append]
        ring
      · intro u
        show principalOf (run now (applyAction now s a) as) u = _
        rw [hrest.2 u, hstep.2 u, flows, userFlowSum_append]
        ring

theorem flowSum_filter_split (u : Nat) (log : List (Nat × Int)) :
    flowSum log
      = userFlowSum u log + flowSum (log.filter (fun e => e.1 ≠ u)) := by
  induction log with
  | nil => simp [flowSum, userFlowSum]
  | cons e l ih =>
      by_cases he : e.1 = u <;>
        simp [flowSum, userFlowSum, List.filter_cons, he] at ih ⊢ <;>
        omega

theorem userFlowSum_filter_ne (u v : Nat) (h : v ≠ u)
    (log : List (Nat × Int)) :
    userFlowSum v (log.filter (fun e => e.1 ≠ u)) = userFlowSum v log := by
  induction log with
  | nil => rfl
  | cons e l ih =>
      by_cases he : e.1 = u
      · have hev : ¬ e.1 = v := by rw [he]; exact fun hx => h hx.symm
        simp [userFlowSum, flowSum, List.filter_cons, he, hev, h,
          Ne.symm h] at ih ⊢
        exact ih
      · by_cases hev : e.1 = v <;>
          simp [userFlowSum, flowSum, List.filter_cons, he, hev, h,
            Ne.symm h] at ih ⊢ <;>
          omega

theorem flowSum_partition (log : List (Nat × Int)) (users : List Nat)
    (hnd : users.Nodup) (hcov : ∀ e ∈ log, e.1 ∈ users) :
    (users.map (fun u => userFlowSum u log)).sum = flowSum log := by
  induction users generalizing log with
  | nil =>
      cases log with
      | nil => rfl
      | cons e l => exact absurd (hcov e (List.mem_cons_self e l)) (by simp)
  | cons u us ih =>
      have hnd' : us.Nodup := hnd.of_cons
      have hu : u ∉ us := (List.nodup_cons.mp hnd).1
      have hmap : us.map (fun v => userFlowSum v log)
          = us.map (fun v => userFlowSum v (log.filter (fun e => e.1 ≠ u))) := by
        apply List.map_congr_left
        intro v hv
        exact (userFlowSum_filter_ne u v (fun hvu => hu (hvu ▸ hv)) log).symm
      have hcov' : ∀ e ∈ log.filter (fun e => e.1 ≠ u), e.1 ∈ us := by
        intro e he
        have hmem := List.of_mem_filter he
        have : e.1 ∈ u :: us := hcov e (List.mem_of_mem_filter he)
        simp at hmem
        rcases List.mem_cons.mp this with h1 | h1
        · exact absurd h1 hmem
        · exact h1
      rw [List.map_cons, List.sum_cons, hmap,
        ih (log.filter (fun e => e.1 ≠ u)) hnd' hcov']
      exact (flowSum_filter_split u log).symm

/-! ## Atomicity and invariant-preservation lemmas -/

theorem applyAction_of_error {now : Nat} {s : VaultState} {a : Action}
    {e : VaultError} (h : step now s a = .error e) :
    applyAction now s a = s := by
  simp [applyAction, h]

theorem applyAction_of_ok {now : Nat} {s : VaultState} {a : Action}
    {s1 : VaultState} (h : step now s a = .ok s1) :
    applyAction now s a = s1 := by
  simp [applyAction, h]


theorem flagsConsistent_applyAction (now : Nat) (s : VaultState) (a : Action)
    (h : flagsConsistent s) : flagsConsistent (applyAction now s a) := by
  cases hstep : step now s a with
  | error e => rw [applyAction_of_error hstep]; exact h
  | ok s1 =>
      rw [applyAction_of_ok hstep]
      cases a with
      | Deposit v amount c =>
          simp only [step, depositStep] at hstep
          by_cases hpz : s.config.isPaused
          · simp [hpz] at hstep
          · by_cases hz : amount = 0
            · simp [hpz, hz] at hstep
            · by_cases hl : c.length = 32
              · cases hp : s.positions v with
                | none =>
                    simp [hpz, hz, hl, hp] at hstep
                    subst hstep
                    intro u
                    by_cases hu : u = v
                    · subst hu
                      rcases h u with ⟨h1, h2⟩
                      simp only [loanFlagOk, bridgeFlagOk, hp] at h1 h2
                      exact ⟨by simpa [loanFlagOk, upd, freshPosition] using h1,
                        by simpa [bridgeFlagOk, upd, freshPosition] using h2⟩
                    · exact ⟨by simpa [loanFlagOk, upd, hu] using h u |>.1,
                        by simpa [bridgeFlagOk, upd, hu] using h u |>.2⟩
                | some p =>
                    simp [hpz, hz, hl, hp] at hstep
                    subst hstep
                    intro u
                    by_cases hu : u = v
                    · subst hu
                      rcases h u with ⟨h1, h2⟩
                      simp only [loanFlagOk, bridgeFlagOk, hp] at h1 h2
                      exact ⟨by simpa [loanFlagOk, upd] using h1,
                        by simpa [bridgeFlagOk, upd] using h2⟩
                    · exact ⟨by simpa [loanFlagOk, upd, hu] using h u |>.1,
                        by simpa [bridgeFlagOk, upd, hu] using h u |>.2⟩
              · simp [hpz, hz, hl] at hstep
      | Withdraw v kind n expected =>
          simp only [step, withdrawStep] at hstep
          by_cases hpz : s.config.isPaused
          · simp [hpz] at hstep
          · cases hp : s.positions v with
            | none => simp [hpz, hp] at hstep
            | some p =>
                by_cases hl : n.length = 32
                · by_cases hz : expected = 0
                  · simp [hpz, hp, hl, hz] at hstep
                  · by_cases hn : p.nullifier = n
                    · simp [hpz, hp, hl, hz, hn, recordNullifier] at hstep
                    · simp [hpz, hp, hl, hz, hn, recordNullifier] at hstep
                      subst hstep
                      intro u
                      by_cases hu : u = v
                      · subst hu
                        rcases h u with ⟨h1, h2⟩
                        simp only [loanFlagOk, bridgeFlagOk, hp] at h1 h2
                        exact ⟨by simpa [loanFlagOk, upd] using h1,
                          by simpa [bridgeFlagOk, upd] using h2⟩
                      · exact ⟨by simpa [loanFlagOk, upd, hu] using h u |>.1,
                          by simpa [bridgeFlagOk, upd, hu] using h u |>.2⟩
                · simp [hpz, hp, hl] at hstep
      | Lend v act rateBps =>
          simp only [step, lendStep] at hstep
          by_cases hpz : s.config.isPaused
          · simp [hpz] at hstep
          · by_cases hv : s.config.privacyCashEnabled
            · cases hp : s.positions v with
              | none => simp [hpz, hv, hp] at hstep
              | some p =>
                  cases act with
                  | Borrow collC borC =>
                      by_cases hloan : p.hasActiveLoan
                      · simp [hpz, hv, hp, hloan] at hstep
                      · by_cases hr : 10000 < rateBps
                        · simp [hpz, hv, hp, hloan, hr] at hstep
                        · simp [hpz, hv, hp, hloan, hr] at hstep
                          subst hstep
                          intro u
                          by_cases hu : u = v
                          · subst hu
                            refine ⟨by simp [loanFlagOk, upd], ?_⟩
                            rcases h u with ⟨_, h2⟩
                            simp only [bridgeFlagOk, hp] at h2
                            simpa [bridgeFlagOk, upd] using h2
                          · exact ⟨by simpa [loanFlagOk, upd, hu] using h u |>.1,
                              by simpa [bridgeFlagOk, upd, hu] using h u |>.2⟩
                  | Repay repC =>
                      by_cases hloan : p.hasActiveLoan
                      · cases hlend : s.lendings v with
                        | none => simp [hpz, hv, hp, hloan, hlend] at hstep
                        | some l =>
                            simp [hpz, hv, hp, hloan, hlend] at hstep
                            subst hstep
                            intro u
                            by_cases hu : u = v
                            · subst hu
                              refine ⟨by simp [loanFlagOk, upd], ?_⟩
                              rcases h u with ⟨_, h2⟩
                              simp only [bridgeFlagOk, hp] at h2
                              simpa [bridgeFlagOk, upd] using h2
                            · exact ⟨by simpa [loanFlagOk, upd, hu] using h u |>.1,
                                by simpa [bridgeFlagOk, upd, hu] using h u |>.2⟩
                      · simp [hpz, hv, hp, hloan] at hstep
            · simp [hpz, hv] at hstep
      | Swap v act route side amtC priceC =>
          simp only [step, swapStep] at hstep
          by_cases hpz : s.config.isPaused
          · simp [hpz] at hstep
          · by_cases hv : routeEnabled s.config route
            · cases hp : s.positions v with
              | none => simp [hpz, hv, hp] at hstep
              | some p =>
                  have hflags : ∀ q : EncryptedPosition,
                      q.hasActiveLoan = p.hasActiveLoan →
                      q.hasPendingBridge = p.hasPendingBridge →
                      ∀ os, flagsConsistent { s with
                        positions := upd s.positions v q, orders := os } := by
                    intro q hq1 hq2 os u
                    by_cases hu : u = v
                    · subst hu
                      rcases h u with ⟨h1, h2⟩
                      simp only [loanFlagOk, bridgeFlagOk, hp] at h1 h2
                      exact ⟨by simpa [loanFlagOk, upd, hq1] using h1,
                        by simpa [bridgeFlagOk, upd, hq2] using h2⟩
                    · exact ⟨by simpa [loanFlagOk, upd, hu] using h u |>.1,
                        by simpa [bridgeFlagOk, upd, hu] using h u |>.2⟩
                  cases act with
                  | Execute =>
                      simp [hpz, hv, hp] at hstep
                      subst hstep
                      exact hflags
                        { p with actionCount := p.actionCount + 1,
                                 lastActionAt := now } rfl rfl s.orders
                  | PlaceLimitOrder =>
                      simp [hpz, hv, hp] at hstep
                      subst hstep
                      exact hflags
                        { p with actionCount := p.actionCount + 1,
                                 lastActionAt := now } rfl rfl _
                  | CancelOrder =>
                      cases ho : s.orders v with
                      | none => simp [hpz, hv, hp, ho] at hstep
                      | some o =>
                          by_cases hst : o.status = .Open ∨ o.status = .PartiallyFilled
                          · simp [hpz, hv, hp, ho, hst] at hstep
                            subst hstep
                            exact hflags
                              { p with actionCount := p.actionCount + 1,
                                       lastActionAt := now } rfl rfl _
                          · simp [hpz, hv, hp, ho, hst] at hstep
            · simp [hpz, hv] at hstep
      | Bridge v act dc amtC =>
          simp only [step, bridgeStep] at hstep
          by_cases hpz : s.config.isPaused
          · simp [hpz] at hstep
          · by_cases hv : s.config.silentswapEnabled
            · cases hp : s.positions v with
              | none => simp [hpz, hv, hp] at hstep
              | some p =>
                  cases act with
                  | InitiateOutbound =>
                      by_cases hpend : p.hasPendingBridge
                      · simp [hpz, hv, hp, hpend] at hstep
                      · by_cases hl : amtC.length = 32
                        · simp [hpz, hv, hp, hpend, hl] at hstep
                          subst hstep
                          intro u
                          by_cases hu : u = v
                          · subst hu
                            refine ⟨?_, by simp [bridgeFlagOk, upd]⟩
                            rcases h u with ⟨h1, _⟩
                            simp only [loanFlagOk, hp] at h1
                            simpa [loanFlagOk, upd] using h1
                          · exact ⟨by simpa [loanFlagOk, upd, hu] using h u |>.1,
                              by simpa [bridgeFlagOk, upd, hu] using h u |>.2⟩
                        · simp [hpz, hv, hp, hpend, hl] at hstep
                  | VerifyCompletion =>
                      cases hb : s.bridges v with
                      | none => simp [hpz, hv, hp, hb] at hstep
                      | some r =>
                          by_cases hst : r.status = BridgeStatus.Pending
                          · simp [hpz, hv, hp, hb, hst] at hstep
                            subst hstep
                            intro u
                            by_cases hu : u = v
                            · subst hu
                              refine ⟨?_, by simp [bridgeFlagOk, upd]⟩
                              rcases h u with ⟨h1, _⟩
                              simp only [loanFlagOk, hp] at h1
                              simpa [loanFlagOk, upd] using h1
                            · exact ⟨by simpa [loanFlagOk, upd, hu] using h u |>.1,
                                by simpa [bridgeFlagOk, upd, hu] using h u |>.2⟩
                          · simp [hpz, hv, hp, hb, hst] at hstep
                  | CancelRequest =>
                      cases hb : s.bridges v with
                      | none => simp [hpz, hv, hp, hb] at hstep
                      | some r =>
                          by_cases hst : r.status = BridgeStatus.Pending
                          · simp [hpz, hv, hp, hb, hst] at hstep
                            subst hstep
                            intro u
                            by_cases hu : u = v
                            · subst hu
                              refine ⟨?_, by simp [bridgeFlagOk, upd]⟩
                              rcases h u with ⟨h1, _⟩
                              simp only [loanFlagOk, hp] at h1
                              simpa [loanFlagOk, upd] using h1
                            · exact ⟨by simpa [loanFlagOk, upd, hu] using h u |>.1,
                                by simpa [bridgeFlagOk, upd, hu] using h u |>.2⟩
                          · simp [hpz, hv, hp, hb, hst] at hstep
            · simp [hpz, hv] at hstep
      | Compliance v act hash days =>
          simp only [step, complianceStep] at hstep
          by_cases hpz : s.config.isPaused
          · simp [hpz] at hstep
          · by_cases hv : s.config.rangeEnabled
            · cases hp : s.positions v with
              | none => simp [hpz, hv, hp] at hstep
              | some p =>
                  have hflags : ∀ q : EncryptedPosition,
                      q.hasActiveLoan = p.hasActiveLoan →
                      q.hasPendingBridge = p.hasPendingBridge →
                      ∀ ats, flagsConsistent { s with
                        positions := upd s.positions v q, attestations := ats } := by
                    intro q hq1 hq2 ats u
                    by_cases hu : u = v
                    · subst hu
                      rcases h u with ⟨h1, h2⟩
                      simp only [loanFlagOk, bridgeFlagOk, hp] at h1 h2
                      exact ⟨by simpa [loanFlagOk, upd, hq1] using h1,
                        by simpa [bridgeFlagOk, upd, hq2] using h2⟩
                    · exact ⟨by simpa [loanFlagOk, upd, hu] using h u |>.1,
                        by simpa [bridgeFlagOk, upd, hu] using h u |>.2⟩
                  cases act with
                  | Submit =>
                      by_cases hl : hash.length = 32
                      · simp [hpz, hv, hp, hl] at hstep
                        subst hstep
                        exact hflags
                          { p with complianceVerified := true,
                                   actionCount := p.actionCount + 1,
                                   lastActionAt := now } rfl rfl _
                      · simp [hpz, hv, hp, hl] at hstep
                  | Verify =>
                      cases ha : s.attestations v with
                      | none => simp [hpz, hv, hp, ha] at hstep
                      | some att =>
                          by_cases hexp : att.expiresAt < now
                          · simp [hpz, hv, hp, ha, hexp] at hstep
                          · simp [hpz, hv, hp, ha, hexp] at hstep
                            subst hstep
                            exact hflags
                              { p with complianceVerified := true,
                                       actionCount := p.actionCount + 1,
                                       lastActionAt := now } rfl rfl _
                  | Revoke =>
                      cases ha : s.attestations v with
                      | none => simp [hpz, hv, hp, ha] at hstep
                      | some att =>
                          simp [hpz, hv, hp, ha] at hstep
                          subst hstep
                          exact hflags
                            { p with complianceVerified := false,
                                     actionCount := p.actionCount + 1,
                                     lastActionAt := now } rfl rfl _
            · simp [hpz, hv] at hstep
      | Admin caller act =>
          simp only [step, adminStep] at hstep
          by_cases hc : caller ≠ s.config.admin
          · simp [hc] at hstep
          · have hconfig : ∀ cfg, flagsConsistent { s with config := cfg } := by
              intro cfg u
              exact h u
            cases act with
            | DepositRewards amount =>
                by_cases hz : amount = 0
                · simp [hc, hz] at hstep
                · simp [hc, hz] at hstep
                  subst hstep
                  exact hconfig _
            | UpdateYieldRate r =>
                by_cases hr : 10000 < r
                · simp [hc, hr] at hstep
                · simp [hc, hr] at hstep
                  subst hstep
                  exact hconfig _
            | ToggleSdk args =>
                simp [hc] at hstep
                subst hstep
                exact hconfig _
            | SetEmergencyMode e =>
                simp [hc] at hstep
                subst hstep
                exact hconfig _
            | SetPaused pz =>
                simp [hc] at hstep
                subst hstep
                exact hconfig _
            | UpdateFees args =>
                by_cases hfr : feesInRange args
                · simp [hc, hfr] at hstep
                  subst hstep
                  exact hconfig _
                · simp [hc, hfr] at hstep

theorem applyToggleSdk_spec (cfg : VaultConfig) (t : ToggleSdkArgs) :
    ((applyToggleSdk cfg t).arciumEnabled = t.arcium.getD cfg.arciumEnabled)
    ∧ ((applyToggleSdk cfg t).shadowwireEnabled
        = t.shadowwire.getD cfg.shadowwireEnabled)
    ∧ ((applyToggleSdk cfg t).anoncoinEnabled
        = t.anoncoin.getD cfg.anoncoinEnabled)
    ∧ ((applyToggleSdk cfg t).privacyCashEnabled
        = t.privacyCash.getD cfg.privacyCashEnabled)
    ∧ ((applyToggleSdk cfg t).silentswapEnabled
        = t.silentswap.getD cfg.silentswapEnabled)
    ∧ ((applyToggleSdk cfg t).starpayEnabled
        = t.starpay.getD cfg.starpayEnabled)
    ∧ ((applyToggleSdk cfg t).rangeEnabled = t.range.getD cfg.rangeEnabled)
    ∧ ((applyToggleSdk cfg t).admin = cfg.admin)
    ∧ ((applyToggleSdk cfg t).treasury = cfg.treasury)
    ∧ ((applyToggleSdk cfg t).totalShieldedTvl = cfg.totalShieldedTvl)
    ∧ ((applyToggleSdk cfg t).totalPositions = cfg.totalPositions)
    ∧ ((applyToggleSdk cfg t).depositFeeBps = cfg.depositFeeBps)
    ∧ ((applyToggleSdk cfg t).withdrawalFeeBps = cfg.withdrawalFeeBps)
    ∧ ((applyToggleSdk cfg t).lendingFeeBps = cfg.lendingFeeBps)
    ∧ ((applyToggleSdk cfg t).swapFeeBps = cfg.swapFeeBps)
    ∧ ((applyToggleSdk cfg t).bridgeFeeBps = cfg.bridgeFeeBps)
    ∧ ((applyToggleSdk cfg t).currentYieldBps = cfg.currentYieldBps)
    ∧ ((applyToggleSdk cfg t).isPaused = cfg.isPaused)
    ∧ ((applyToggleSdk cfg t).emergencyMode = cfg.emergencyMode)
    ∧ ((applyToggleSdk cfg t).complianceRequired = cfg.complianceRequired) := by
  rcases t with ⟨t1, t2, t3, t4, t5, t6, t7⟩
  cases t1 <;> cases t2 <;> cases t3 <;> cases t4 <;> cases t5 <;>
    cases t6 <;> cases t7 <;>
    simp [applyToggleSdk]

theorem applyUpdateFees_spec (cfg : VaultConfig) (f : UpdateFeesArgs) :
    ((applyUpdateFees cfg f).depositFeeBps
        = f.depositFeeBps.getD cfg.depositFeeBps)
    ∧ ((applyUpdateFees cfg f).withdrawalFeeBps
        = f.withdrawalFeeBps.getD cfg.withdrawalFeeBps)
    ∧ ((applyUpdateFees cfg f).lendingFeeBps
        = f.lendingFeeBps.getD cfg.lendingFeeBps)
    ∧ ((applyUpdateFees cfg f).swapFeeBps = f.swapFeeBps.getD cfg.swapFeeBps)
    ∧ ((applyUpdateFees cfg f).bridgeFeeBps
        = f.bridgeFeeBps.getD cfg.bridgeFeeBps)
    ∧ ((applyUpdateFees cfg f).admin = cfg.admin)
    ∧ ((applyUpdateFees cfg f).treasury = cfg.treasury)
    ∧ ((applyUpdateFees cfg f).totalShieldedTvl = cfg.totalShieldedTvl)
    ∧ ((applyUpdateFees cfg f).totalPositions = cfg.totalPositions)
    ∧ ((applyUpdateFees cfg f).currentYieldBps = cfg.currentYieldBps)
    ∧ ((applyUpdateFees cfg f).isPaused = cfg.isPaused)
    ∧ ((applyUpdateFees cfg f).emergencyMode = cfg.emergencyMode)
    ∧ ((applyUpdateFees cfg f).complianceRequired = cfg.complianceRequired)
    ∧ ((applyUpdateFees cfg f).arciumEnabled = cfg.arciumEnabled)
    ∧ ((applyUpdateFees cfg f).shadowwireEnabled = cfg.shadowwireEnabled)
    ∧ ((applyUpdateFees cfg f).anoncoinEnabled = cfg.anoncoinEnabled)
    ∧ ((applyUpdateFees cfg f).privacyCashEnabled = cfg.privacyCashEnabled)
    ∧ ((applyUpdateFees cfg f).silentswapEnabled = cfg.silentswapEnabled)
    ∧ ((applyUpdateFees cfg f).starpayEnabled = cfg.starpayEnabled)
    ∧ ((applyUpdateFees cfg f).rangeEnabled = cfg.rangeEnabled) := by
  rcases f with ⟨f1, f2, f3, f4, f5⟩
  cases f1 <;> cases f2 <;> cases f3 <;> cases f4 <;> cases f5 <;>
    simp [applyUpdateFees]

/-! ## Claim theorems -/

/-- C3: Fee computation exactness: for every amount and feeBps,
applyFee(amount, feeBps) returns (net, fee) with
fee = floor(amount * feeBps / 10000) and net = amount - fee; the fee is
rounded only by floor and never in the payer's favor
(10000 * fee ≤ amount * feeBps < 10000 * (fee + 1)); net and fee re-add
to the amount whenever feeBps is a valid basis-point rate; in particular
applyFee(50_000_000_000, 10) = (49_950_000_000, 50_000_000) and a
withdrawal of 55_000_000_000 at withdrawalFeeBps = 10 nets exactly
54_945_000_000. -/
theorem applyFee_exact (amount feeBps : Nat) :
    (applyFee amount feeBps).2 = amount * feeBps / 10000
    ∧ (applyFee amount feeBps).1 = amount - amount * feeBps / 10000
    ∧ 10000 * (applyFee amount feeBps).2 ≤ amount * feeBps
    ∧ amount * feeBps < 10000 * ((applyFee amount feeBps).2 + 1)
    ∧ (feeBps ≤ 10000 →
        (applyFee amount feeBps).1 + (applyFee amount feeBps).2 = amount)
    ∧ applyFee 50000000000 10 = (49950000000, 50000000)
    ∧ (applyFee 55000000000 10).1 = 54945000000 := by
  have hdm := Nat.div_add_mod (amount * feeBps) 10000
  have hmlt : amount * feeBps % 10000 < 10000 :=
    Nat.mod_lt _ (by norm_num)
  have hfee : (applyFee amount feeBps).2 = amount * feeBps / 10000 := rfl
  refine ⟨rfl, rfl, by rw [hfee]; omega, by rw [hfee]; omega, ?_,
    by decide, by decide⟩
  intro hle
  have hmono : amount * feeBps ≤ amount * 10000 :=
    Nat.mul_le_mul_left amount hle
  simp only [applyFee]
  omega

theorem applyFee_exact_witness :
    (10 : Nat) ≤ 10000
    ∧ (applyFee 55000000000 10).1 + (applyFee 55000000000 10).2
        = 55000000000 :=
  ⟨by decide, (applyFee_exact 55000000000 10).2.2.2.2.1 (by decide)⟩

/-- C4: Atomicity of rejection: whenever the action router rejects an
action with any error of the taxonomy, the executed action leaves the
whole state — the VaultConfig and every per-user EncryptedPosition,
LendingPosition, BridgeRequest, DarkPoolOrder and ComplianceAttestation —
exactly unchanged. -/
theorem rejection_atomic (now : Nat) (s : VaultState) (a : Action)
    (e : VaultError) (h : step now s a = .error e) :
    applyAction now s a = s
    ∧ (applyAction now s a).config = s.config
    ∧ (∀ u, (applyAction now s a).positions u = s.positions u)
    ∧ (∀ u, (applyAction now s a).lendings u = s.lendings u)
    ∧ (∀ u, (applyAction now s a).bridges u = s.bridges u)
    ∧ (∀ u, (applyAction now s a).orders u = s.orders u)
    ∧ (∀ u, (applyAction now s a).attestations u = s.attestations u) := by
  have hs := applyAction_of_error h
  exact ⟨hs, by rw [hs], fun u => by rw [hs], fun u => by rw [hs],
    fun u => by rw [hs], fun u => by rw [hs], fun u => by rw [hs]⟩

theorem rejection_atomic_witness :
    step 0 pausedEx (.Deposit 7 5 c32) = .error .VaultPaused
    ∧ applyAction 0 pausedEx (.Deposit 7 5 c32) = pausedEx :=
  ⟨rfl, (rejection_atomic 0 pausedEx (.Deposit 7 5 c32) .VaultPaused rfl).1⟩

/-- C8: Admin partial-update frame: for ToggleSdk, every venue flag
supplied as none is left exactly unchanged, every flag supplied as some b
is set to b, and no VaultConfig field outside the seven venue flags
changes; for UpdateFees, every fee field supplied as none is unchanged,
every field supplied as some v is set to v, and no field outside the five
fee fields changes. -/
theorem admin_partial_update_frame (cfg : VaultConfig) (t : ToggleSdkArgs)
    (f : UpdateFeesArgs) :
    (((applyToggleSdk cfg t).arciumEnabled = t.arcium.getD cfg.arciumEnabled)
      ∧ ((applyToggleSdk cfg t).shadowwireEnabled
          = t.shadowwire.getD cfg.shadowwireEnabled)
      ∧ ((applyToggleSdk cfg t).anoncoinEnabled
          = t.anoncoin.getD cfg.anoncoinEnabled)
      ∧ ((applyToggleSdk cfg t).privacyCashEnabled
          = t.privacyCash.getD cfg.privacyCashEnabled)
      ∧ ((applyToggleSdk cfg t).silentswapEnabled
          = t.silentswap.getD cfg.silentswapEnabled)
      ∧ ((applyToggleSdk cfg t).starpayEnabled
          = t.starpay.getD cfg.starpayEnabled)
      ∧ ((applyToggleSdk cfg t).rangeEnabled = t.range.getD cfg.rangeEnabled)
      ∧ ((applyToggleSdk cfg t).admin = cfg.admin)
      ∧ ((applyToggleSdk cfg t).treasury = cfg.treasury)
      ∧ ((applyToggleSdk cfg t).totalShieldedTvl = cfg.totalShieldedTvl)
      ∧ ((applyToggleSdk cfg t).totalPositions = cfg.totalPositions)
      ∧ ((applyToggleSdk cfg t).depositFeeBps = cfg.depositFeeBps)
      ∧ ((applyToggleSdk cfg t).withdrawalFeeBps = cfg.withdrawalFeeBps)
      ∧ ((applyToggleSdk cfg t).lendingFeeBps = cfg.lendingFeeBps)
      ∧ ((applyToggleSdk cfg t).swapFeeBps = cfg.swapFeeBps)
      ∧ ((applyToggleSdk cfg t).bridgeFeeBps = cfg.bridgeFeeBps)
      ∧ ((applyToggleSdk cfg t).currentYieldBps = cfg.currentYieldBps)
      ∧ ((applyToggleSdk cfg t).isPaused = cfg.isPaused)
      ∧ ((applyToggleSdk cfg t).emergencyMode = cfg.emergencyMode)
      ∧ ((applyToggleSdk cfg t).complianceRequired = cfg.complianceRequired))
    ∧ (((applyUpdateFees cfg f).depositFeeBps
          = f.depositFeeBps.getD cfg.depositFeeBps)
      ∧ ((applyUpdateFees cfg f).withdrawalFeeBps
          = f.withdrawalFeeBps.getD cfg.withdrawalFeeBps)
      ∧ ((applyUpdateFees cfg f).lendingFeeBps
          = f.lendingFeeBps.getD cfg.lendingFeeBps)
      ∧ ((applyUpdateFees cfg f).swapFeeBps
          = f.swapFeeBps.getD cfg.swapFeeBps)
      ∧ ((applyUpdateFees cfg f).bridgeFeeBps
          = f.bridgeFeeBps.getD cfg.bridgeFeeBps)
      ∧ ((applyUpdateFees cfg f).admin = cfg.admin)
      ∧ ((applyUpdateFees cfg f).treasury = cfg.treasury)
      ∧ ((applyUpdateFees cfg f).totalShieldedTvl = cfg.totalShieldedTvl)
      ∧ ((applyUpdateFees cfg f).totalPositions = cfg.totalPositions)
      ∧ ((applyUpdateFees cfg f).currentYieldBps = cfg.currentYieldBps)
      ∧ ((applyUpdateFees cfg f).isPaused = cfg.isPaused)
      ∧ ((applyUpdateFees cfg f).emergencyMode = cfg.emergencyMode)
      ∧ ((applyUpdateFees cfg f).complianceRequired = cfg.complianceRequired)
      ∧ ((applyUpdateFees cfg f).arciumEnabled = cfg.arciumEnabled)
      ∧ ((applyUpdateFees cfg f).shadowwireEnabled = cfg.shadowwireEnabled)
      ∧ ((applyUpdateFees cfg f).anoncoinEnabled = cfg.anoncoinEnabled)
      ∧ ((applyUpdateFees cfg f).privacyCashEnabled = cfg.privacyCashEnabled)
      ∧ ((applyUpdateFees cfg f).silentswapEnabled = cfg.silentswapEnabled)
      ∧ ((applyUpdateFees cfg f).starpayEnabled = cfg.starpayEnabled)
      ∧ ((applyUpdateFees cfg f).rangeEnabled = cfg.rangeEnabled)) :=
  ⟨applyToggleSdk_spec cfg t, applyUpdateFees_spec cfg f⟩

/-- C9 counterexample: calculateYield (src/app/src/lib/utils.ts) is not
the truncated fixed-point accrual the claim describes: at the integer
inputs principal = 1, yieldBps = 10000, third argument = 1 the code
returns 1/365 — a value strictly between 0 and 1 and hence not an integer
at all — while the claimed truncated-toward-zero result is 0 (whether the
third argument is read as days against 365 days or as seconds against
secondsPerYear).  The rational model is exact here up to IEEE-754
rounding below 2^-50, which cannot bridge the gap to any integer, so the
refutation is robust to double rounding. -/
theorem calculateYield_not_truncated :
    calculateYield 1 10000 1 = 1 / 365
    ∧ (0 : ℚ) < calculateYield 1 10000 1
    ∧ calculateYield 1 10000 1 < 1
    ∧ ¬ (∃ z : ℤ, calculateYield 1 10000 1 = (z : ℚ)) := by
  have hval : calculateYield 1 10000 1 = 1 / 365 := by
    norm_num [calculateYield]
  refine ⟨hval, by rw [hval]; norm_num, by rw [hval]; norm_num, ?_⟩
  rintro ⟨z, hz⟩
  rw [hval] at hz
  have h0 : (0 : ℚ) < (z : ℚ) := by rw [← hz]; norm_num
  have h1 : ((z : ℚ)) < 1 := by rw [← hz]; norm_num
  have h0z : (0 : ℤ) < z := by exact_mod_cast h0
  have h1z : z < (1 : ℤ) := by exact_mod_cast h1
  omega

/-- C9 (amended): calculateYield(principal, yieldBps, days) returns the
exact untruncated value principal * (yieldBps / 10000) / 365 * days —
linear interest on a 365-day year parameterized in days, not seconds —
deterministically as a pure function of its inputs; it performs no
truncation toward zero (the computation in the code is IEEE-754
floating-point, embedded here as exact rationals). -/
theorem calculateYield_formula (principal yieldBps days : ℚ) :
    calculateYield principal yieldBps days
      = principal * yieldBps * days / 3650000 := by
  unfold calculateYield
  ring

/-- C10: for every requested length n and any entropy stream, the
client-side generateRandomBytes returns exactly n entries, each an
integer in [1, 255] (a zero byte is never produced); the client wrappers
generateCommitment/generateNullifier/generateProof and the test-suite
helpers Tests.generateProof/generateCommitment/generateNullifier inherit
this, so every client-generated 32-byte commitment, nullifier and proof
is non-zero and of the correct length. -/
theorem generateRandomBytes_wellformed (n : Nat) (rand : Nat → Nat) :
    (generateRandomBytes n rand).length = n
    ∧ (∀ b ∈ generateRandomBytes n rand, 1 ≤ b ∧ b ≤ 255)
    ∧ (generateCommitment rand).length = 32
    ∧ (generateNullifier rand).length = 32
    ∧ (generateProof n rand).length = n
    ∧ (∀ b ∈ generateCommitment rand, b ≠ 0)
    ∧ (Tests.generateProof n rand).length = n
    ∧ (∀ b ∈ Tests.generateProof n rand, 1 ≤ b ∧ b ≤ 255)
    ∧ (Tests.generateCommitment rand).length = 32
    ∧ (Tests.generateNullifier rand).length = 32
    ∧ (∀ b ∈ Tests.generateNullifier rand, b ≠ 0) := by
  have hlen : ∀ m : Nat, (generateRandomBytes m rand).length = m := by
    intro m
    simp [generateRandomBytes]
  have hrange : ∀ m : Nat, ∀ b ∈ generateRandomBytes m rand,
      1 ≤ b ∧ b ≤ 255 := by
    intro m b hb
    simp only [generateRandomBytes, List.mem_map, List.mem_range] at hb
    obtain ⟨i, _, hbi⟩ := hb
    have hmod : rand i % 256 < 256 := Nat.mod_lt _ (by norm_num)
    by_cases hz : rand i % 256 = 0 <;> simp [hz] at hbi <;> omega
  have htlen : ∀ m : Nat, (Tests.generateProof m rand).length = m := by
    intro m
    simp [Tests.generateProof]
  have htrange : ∀ m : Nat, ∀ b ∈ Tests.generateProof m rand,
      1 ≤ b ∧ b ≤ 255 := by
    intro m b hb
    simp only [Tests.generateProof, List.mem_map, List.mem_range] at hb
    obtain ⟨i, _, hbi⟩ := hb
    have hmod : rand i % 255 < 255 := Nat.mod_lt _ (by norm_num)
    omega
  refine ⟨hlen n, hrange n, hlen 32, hlen 32, hlen n, ?_, htlen n,
    htrange n, htlen 32, htlen 32, ?_⟩
  · intro b hb
    have := hrange 32 b hb
    omega
  · intro b hb
    have := htrange 32 b hb
    omega

/-- C1: Value conservation: starting from a freshly initialized vault,
after any sequence of deposits and withdrawals, every user's current
principal equivalent equals the sum of that user's deposited amounts minus
the sum of that user's withdrawal net amounts, and the vault's
totalShieldedTvl equals the sum of per-user net contributions over any
duplicate-free list of users covering the flow log. -/
theorem value_conservation (cfg : VaultConfig) (now : Nat)
    (as : List Action) (users : List Nat)
    (hdw : ∀ a ∈ as, isDepWd a = true) (hnd : users.Nodup)
    (hcov : ∀ e ∈ flows now (freshState cfg) as, e.1 ∈ users) :
    (∀ u, principalOf (run now (freshState cfg) as) u
        = userFlowSum u (flows now (freshState cfg) as))
    ∧ (run now (freshState cfg) as).config.totalShieldedTvl
        = (users.map
            (fun u => userFlowSum u (flows now (freshState cfg) as))).sum := by
  have h := run_flow now as (freshState cfg) hdw
  constructor
  · intro u
    have hu := h.2 u
    simpa [principalOf, freshState] using hu
  · rw [flowSum_partition _ users hnd hcov]
    simpa [freshState] using h.1

theorem value_conservation_witness :
    (∀ a ∈ [Action.Deposit 7 100 c32, Action.Withdraw 7 .Full n32a 40],
        isDepWd a = true)
    ∧ ([7] : List Nat).Nodup
    ∧ (∀ e ∈ flows 0 (freshState cfgEx)
          [Action.Deposit 7 100 c32, Action.Withdraw 7 .Full n32a 40],
        e.1 ∈ [7])
    ∧ principalOf (run 0 (freshState cfgEx)
          [Action.Deposit 7 100 c32, Action.Withdraw 7 .Full n32a 40]) 7
        = userFlowSum 7 (flows 0 (freshState cfgEx)
            [Action.Deposit 7 100 c32, Action.Withdraw 7 .Full n32a 40])
    ∧ (run 0 (freshState cfgEx)
          [Action.Deposit 7 100 c32,
            Action.Withdraw 7 .Full n32a 40]).config.totalShieldedTvl
        = (([7] : List Nat).map
            (fun u => userFlowSum u (flows 0 (freshState cfgEx)
              [Action.Deposit 7 100 c32,
                Action.Withdraw 7 .Full n32a 40]))).sum :=
  ⟨by decide, by decide, by decide,
    (value_conservation cfgEx 0
      [Action.Deposit 7 100 c32, Action.Withdraw 7 .Full n32a 40] [7]
      (by decide) (by decide) (by decide)).1 7,
    (value_conservation cfgEx 0
      [Action.Deposit 7 100 c32, Action.Withdraw 7 .Full n32a 40] [7]
      (by decide) (by decide) (by decide)).2⟩

/-- C2 counterexample: the ledger keeps a single last-consumed nullifier
slot, so "never previously recorded" is not what is enforced: on user 7's
fresh position, recording n32a succeeds, recording n32b succeeds, and
recording n32a again succeeds as well — although n32a had previously been
recorded for this position, where the claim requires NullifierReused. -/
theorem nullifier_history_reuse_counterexample :
    recordNullifier pEx n32a = .ok { pEx with nullifier := n32a }
    ∧ recordNullifier { pEx with nullifier := n32a } n32b
        = .ok { pEx with nullifier := n32b }
    ∧ recordNullifier { pEx with nullifier := n32b } n32a
        = .ok { pEx with nullifier := n32a } := by
  refine ⟨?_, ?_, ?_⟩ <;> rfl

/-- C2 (amended): single-slot nullifier semantics: recordNullifier(n)
succeeds and stores n exactly when n differs from the position's stored
last-consumed nullifier, and fails with NullifierReused exactly when n
equals it; consequently two back-to-back withdrawals presenting the same
well-formed nullifier yield exactly one success — which records exactly
that nullifier on the position — followed by one NullifierReused.
(Only the most recent nullifier is checked; an older one can be
re-recorded, see the counterexample.) -/
theorem nullifier_single_slot (q : EncryptedPosition) (m : List Nat)
    (now : Nat) (s : VaultState) (u : Nat) (k1 k2 : WithdrawKind)
    (e1 e2 : Nat) (p : EncryptedPosition) (nl : List Nat)
    (hpz : s.config.isPaused = false) (hp : s.positions u = some p)
    (hn : p.nullifier ≠ nl) (hln : nl.length = 32)
    (he1 : e1 ≠ 0) (he2 : e2 ≠ 0) :
    ((q.nullifier ≠ m → recordNullifier q m = .ok { q with nullifier := m })
      ∧ (q.nullifier = m →
          recordNullifier q m = .error .NullifierReused))
    ∧ (step now s (.Withdraw u k1 nl e1)).isOk = true
    ∧ ((applyAction now s (.Withdraw u k1 nl e1)).positions u).map
        EncryptedPosition.nullifier = some nl
    ∧ step now (applyAction now s (.Withdraw u k1 nl e1))
        (.Withdraw u k2 nl e2) = .error .NullifierReused := by
  refine ⟨⟨fun hq => by simp [recordNullifier, hq],
    fun hq => by simp [recordNullifier, hq]⟩, ?_, ?_, ?_⟩
  · simp [step, withdrawStep, hpz, hp, hln, he1, recordNullifier, hn,
      Except.isOk, Except.toBool]
  · simp [applyAction, step, withdrawStep, hpz, hp, hln, he1,
      recordNullifier, hn, upd]
  · simp [applyAction, step, withdrawStep, hpz, hp, hln, he1, he2,
      recordNullifier, hn, upd]

theorem nullifier_single_slot_witness :
    sEx.config.isPaused = false
    ∧ sEx.positions 7 = some pEx
    ∧ pEx.nullifier ≠ n32a
    ∧ n32a.length = 32
    ∧ (step 0 sEx (.Withdraw 7 .Full n32a 40)).isOk = true
    ∧ ((applyAction 0 sEx (.Withdraw 7 .Full n32a 40)).positions 7).map
        EncryptedPosition.nullifier = some n32a
    ∧ step 0 (applyAction 0 sEx (.Withdraw 7 .Full n32a 40))
        (.Withdraw 7 .Full n32a 50) = .error .NullifierReused :=
  ⟨rfl, by decide, by decide, by decide,
    (nullifier_single_slot pEx n32a 0 sEx 7 .Full .Full 40 50 pEx n32a
      rfl (by decide) (by decide) (by decide) (by decide) (by decide)).2.1,
    (nullifier_single_slot pEx n32a 0 sEx 7 .Full .Full 40 50 pEx n32a
      rfl (by decide) (by decide) (by decide) (by decide) (by decide)).2.2.1,
    (nullifier_single_slot pEx n32a 0 sEx 7 .Full .Full 40 50 pEx n32a
      rfl (by decide) (by decide) (by decide) (by decide) (by decide)).2.2.2⟩

theorem flagsConsistent_freshState (cfg : VaultConfig) :
    flagsConsistent (freshState cfg) := by
  intro u
  exact ⟨by simp [loanFlagOk, freshState],
    by simp [bridgeFlagOk, freshState]⟩

theorem flagsConsistent_run (now : Nat) (as : List Action) :
    ∀ s : VaultState, flagsConsistent s → flagsConsistent (run now s as) := by
  induction as with
  | nil => exact fun s h => h
  | cons b bs ih =>
      exact fun s h => ih _ (flagsConsistent_applyAction now s b h)

/-- C5: Cross-entity flag invariant: in the initial state and after each
action (hence in every reachable state and after every operation), a
user's EncryptedPosition.hasActiveLoan is true iff that user's
LendingPosition.isActive is true, and EncryptedPosition.hasPendingBridge
is true iff that user's BridgeRequest has status Pending. -/
theorem flag_mirror_invariant (cfg : VaultConfig) (now : Nat)
    (s : VaultState) (a : Action) (as : List Action)
    (h : flagsConsistent s) :
    flagsConsistent (freshState cfg)
    ∧ flagsConsistent (applyAction now s a)
    ∧ flagsConsistent (run now s as) :=
  ⟨flagsConsistent_freshState cfg,
    flagsConsistent_applyAction now s a h,
    flagsConsistent_run now as s h⟩

theorem flag_mirror_invariant_witness :
    flagsConsistent (freshState cfgEx)
    ∧ flagsConsistent (applyAction 0 (freshState cfgEx)
        (.Deposit 7 100 c32)) :=
  ⟨flagsConsistent_freshState cfgEx,
    (flag_mirror_invariant cfgEx 0 (freshState cfgEx) (.Deposit 7 100 c32)
      [] (flagsConsistent_freshState cfgEx)).2.1⟩

/-- C6: Bridge request state machine: InitiateOutbound is rejected with
BridgePending when hasPendingBridge is set, and otherwise creates the
BridgeRequest in Pending with the numeric chain id from the fixed table
(Ethereum 1, Polygon 137, Arbitrum 42161, Optimism 10, Base 8453,
Avalanche 43114, BSC 56), setting hasPendingBridge; VerifyCompletion
requires Pending and transitions to Completed clearing the flag;
CancelRequest requires Pending and transitions to Cancelled clearing the
flag; on a Completed or Cancelled (non-Pending) request both transition
actions are rejected and the request is left unchanged (terminal). -/
theorem bridge_lifecycle (now : Nat) (s : VaultState) (u : Nat)
    (p : EncryptedPosition) (dc : DestinationChain) (amtC : List Nat)
    (r : BridgeRequest)
    (hpz : s.config.isPaused = false)
    (hv : s.config.silentswapEnabled = true)
    (hp : s.positions u = some p) :
    (chainId .Ethereum = 1 ∧ chainId .Polygon = 137
      ∧ chainId .Arbitrum = 42161 ∧ chainId .Optimism = 10
      ∧ chainId .Base = 8453 ∧ chainId .Avalanche = 43114
      ∧ chainId .BSC = 56)
    ∧ (p.hasPendingBridge = true →
        step now s (.Bridge u .InitiateOutbound dc amtC)
          = .error .BridgePending)
    ∧ (p.hasPendingBridge = false → amtC.length = 32 →
        (applyAction now s (.Bridge u .InitiateOutbound dc amtC)).bridges u
            = some { user := u
                     destChainId := chainId dc
                     amountCommitment := amtC
                     status := .Pending
                     createdAt := now }
        ∧ ((applyAction now s
              (.Bridge u .InitiateOutbound dc amtC)).positions u).map
            EncryptedPosition.hasPendingBridge = some true)
    ∧ (s.bridges u = some r →
        (r.status = .Pending →
          (applyAction now s (.Bridge u .VerifyCompletion dc amtC)).bridges u
              = some { r with status := .Completed }
          ∧ ((applyAction now s
                (.Bridge u .VerifyCompletion dc amtC)).positions u).map
              EncryptedPosition.hasPendingBridge = some false)
        ∧ (r.status ≠ .Pending →
            step now s (.Bridge u .VerifyCompletion dc amtC)
              = .error .InvalidBridgeState
            ∧ (applyAction now s
                (.Bridge u .VerifyCompletion dc amtC)).bridges u = some r))
    ∧ (s.bridges u = some r →
        (r.status = .Pending →
          (applyAction now s (.Bridge u .CancelRequest dc amtC)).bridges u
              = some { r with status := .Cancelled }
          ∧ ((applyAction now s
                (.Bridge u .CancelRequest dc amtC)).positions u).map
              EncryptedPosition.hasPendingBridge = some false)
        ∧ (r.status ≠ .Pending →
            step now s (.Bridge u .CancelRequest dc amtC)
              = .error .InvalidBridgeState
            ∧ (applyAction now s
                (.Bridge u .CancelRequest dc amtC)).bridges u = some r)) := by
  refine ⟨⟨rfl, rfl, rfl, rfl, rfl, rfl, rfl⟩, ?_, ?_, ?_, ?_⟩
  · intro hpend
    simp [step, bridgeStep, hpz, hv, hp, hpend]
  · intro hpend hl
    constructor
    · simp [applyAction, step, bridgeStep, hpz, hv, hp, hpend, hl, upd]
    · simp [applyAction, step, bridgeStep, hpz, hv, hp, hpend, hl, upd]
  · intro hb
    constructor
    · intro hst
      constructor
      · simp [applyAction, step, bridgeStep, hpz, hv, hp, hb, hst, upd]
      · simp [applyAction, step, bridgeStep, hpz, hv, hp, hb, hst, upd]
    · intro hst
      constructor
      · simp [step, bridgeStep, hpz, hv, hp, hb, hst]
      · have herr : step now s (.Bridge u .VerifyCompletion dc amtC)
            = .error .InvalidBridgeState := by
          simp [step, bridgeStep, hpz, hv, hp, hb, hst]
        rw [applyAction_of_error herr]
        exact hb
  · intro hb
    constructor
    · intro hst
      constructor
      · simp [applyAction, step, bridgeStep, hpz, hv, hp, hb, hst, upd]
      · simp [applyAction, step, bridgeStep, hpz, hv, hp, hb, hst, upd]
    · intro hst
      constructor
      · simp [step, bridgeStep, hpz, hv, hp, hb, hst]
      · have herr : step now s (.Bridge u .CancelRequest dc amtC)
            = .error .InvalidBridgeState := by
          simp [step, bridgeStep, hpz, hv, hp, hb, hst]
        rw [applyAction_of_error herr]
        exact hb

theorem bridge_lifecycle_witness :
    sEx.config.isPaused = false
    ∧ sEx.config.silentswapEnabled = true
    ∧ sEx.positions 7 = some pEx
    ∧ pEx.hasPendingBridge = false
    ∧ c32.length = 32
    ∧ (applyAction 0 sEx (.Bridge 7 .InitiateOutbound .Ethereum c32)).bridges 7
        = some { user := 7
                 destChainId := 1
                 amountCommitment := c32
                 status := .Pending
                 createdAt := 0 } :=
  ⟨rfl, rfl, by decide, by decide, by decide,
    ((bridge_lifecycle 0 sEx 7 pEx .Ethereum c32 rEx rfl rfl
        (by decide)).2.2.1 (by decide) (by decide)).1⟩

/-- C7: Dark-pool order lifecycle: PlaceLimitOrder creates or overwrites
the user's DarkPoolOrder with status Open; CancelOrder transitions an
order whose status is Open or PartiallyFilled to Cancelled and is
rejected with OrderNotCancellable for every other status (and when no
order exists); in particular a second cancel of the same order always
fails with OrderNotCancellable. -/
theorem darkpool_lifecycle (now : Nat) (s : VaultState) (u : Nat)
    (p : EncryptedPosition) (side : OrderSide) (amtC priceC : List Nat)
    (o : DarkPoolOrder)
    (hpz : s.config.isPaused = false)
    (hv : s.config.anoncoinEnabled = true)
    (hp : s.positions u = some p) :
    ((applyAction now s
        (.Swap u .PlaceLimitOrder .AnoncoinDarkPool side amtC priceC)).orders u
      = some { maker := u
               side := side
               amountCommitment := amtC
               priceCommitment := priceC
               status := .Open
               createdAt := now })
    ∧ (s.orders u = some o →
        ((o.status = .Open ∨ o.status = .PartiallyFilled) →
          (applyAction now s
              (.Swap u .CancelOrder .AnoncoinDarkPool side amtC priceC)).orders u
            = some { o with status := .Cancelled })
        ∧ (o.status ≠ .Open → o.status ≠ .PartiallyFilled →
            step now s (.Swap u .CancelOrder .AnoncoinDarkPool side amtC priceC)
              = .error .OrderNotCancellable))
    ∧ (s.orders u = none →
        step now s (.Swap u .CancelOrder .AnoncoinDarkPool side amtC priceC)
          = .error .OrderNotCancellable)
    ∧ (s.orders u = some o → (o.status = .Open ∨ o.status = .PartiallyFilled) →
        step now
          (applyAction now s
            (.Swap u .CancelOrder .AnoncoinDarkPool side amtC priceC))
          (.Swap u .CancelOrder .AnoncoinDarkPool side amtC priceC)
          = .error .OrderNotCancellable) := by
  refine ⟨?_, ?_, ?_, ?_⟩
  · simp [applyAction, step, swapStep, routeEnabled, hpz, hv, hp, upd]
  · intro ho
    constructor
    · intro hst
      simp [applyAction, step, swapStep, routeEnabled, hpz, hv, hp, ho,
        hst, upd]
    · intro h1 h2
      simp [step, swapStep, routeEnabled, hpz, hv, hp, ho, h1, h2]
  · intro ho
    simp [step, swapStep, routeEnabled, hpz, hv, hp, ho]
  · intro ho hst
    have hred : applyAction now s
        (.Swap u .CancelOrder .AnoncoinDarkPool side amtC priceC)
        = { s with
            positions := upd s.positions u
              { p with actionCount := p.actionCount + 1, lastActionAt := now }
            orders := upd s.orders u { o with status := .Cancelled } } := by
      simp [applyAction, step, swapStep, routeEnabled, hpz, hv, hp, ho, hst]
    rw [hred]
    simp [step, swapStep, routeEnabled, hpz, hv, upd]

theorem darkpool_lifecycle_witness :
    sOrd.config.isPaused = false
    ∧ sOrd.config.anoncoinEnabled = true
    ∧ sOrd.positions 7 = some pEx2
    ∧ sOrd.orders 7 = some oEx
    ∧ (oEx.status = .Open ∨ oEx.status = .PartiallyFilled)
    ∧ step 0
        (applyAction 0 sOrd (.Swap 7 .CancelOrder .AnoncoinDarkPool .Sell c32 c32))
        (.Swap 7 .CancelOrder .AnoncoinDarkPool .Sell c32 c32)
        = .error .OrderNotCancellable :=
  ⟨rfl, rfl, by decide, by decide, Or.inl (by decide),
    (darkpool_lifecycle 0 sOrd 7 pEx2 .Sell c32 c32 oEx rfl rfl
        (by decide)).2.2.2 (by decide) (Or.inl (by decide))⟩

end Shadowforge
